import Mathlib

/-!
Verification of the `cipher__BitcoinAddress` record declared in
`src/include/cipher.bitcoin.go.h`: a C struct holding a one-byte `Version`
field and a 20-byte `Key` hash field.  The development embeds the struct,
its (implicit, C-semantics) operations — aggregate construction, field
reads, by-value copying, byte serialization — and proves the structural
properties the specification states about them.
-/

/-- An `unsigned char` value: one byte, in the range 0–255. -/
abbrev Byte := Fin 256

/-- Modelled from the spec: the type `cipher__Ripemd160` is referenced by the
`Key` field of `cipher__BitcoinAddress` but its own declaration is not among
the given sources.  The spec describes it as "a fixed-size 160-bit (20-byte)
opaque byte sequence", so it is embedded as a list of exactly 20 bytes. -/
abbrev cipher__Ripemd160 := { l : List Byte // l.length = 20 }

/-- The C struct `cipher__BitcoinAddress`: an address version identifier byte
(`unsigned char Version`) followed by a 20-byte address hash identifier
(`cipher__Ripemd160 Key`). -/
structure cipher__BitcoinAddress where
  Version : Byte
  Key : cipher__Ripemd160
deriving DecidableEq

/-- Construction of a `cipher__BitcoinAddress` (C aggregate initialization
`{v, h}`): stores the two arguments as given, performing no validation. -/
def mkBitcoinAddress (v : Byte) (h : cipher__Ripemd160) : cipher__BitcoinAddress :=
  ⟨v, h⟩

/-- Reading the `Version` field of a record. -/
def readVersion (a : cipher__BitcoinAddress) : Byte :=
  a.Version

/-- Reading the `Key` field of a record. -/
def readKey (a : cipher__BitcoinAddress) : cipher__Ripemd160 :=
  a.Key

/-- The record's logical payload bytes read out in declaration order: the
`Version` byte first, then the 20 `Key` bytes. -/
def serializeBitcoinAddress (a : cipher__BitcoinAddress) : List Byte :=
  a.Version :: a.Key.val

/-- A consumer reading the payload bytes back in the fixed order: the first
byte is the version and the following 20 bytes are the hash; anything other
than exactly 21 bytes is rejected. -/
def deserializeBitcoinAddress (bs : List Byte) : Option cipher__BitcoinAddress :=
  match bs with
  | [] => none
  | v :: rest =>
    if h : rest.length = 20 then some ⟨v, ⟨rest, h⟩⟩ else none

/-- The C conversion applied when an integer value is stored into an
`unsigned char` object such as the `Version` field (C17 6.3.1.3p2): the value
is reduced modulo 2^8 into the range 0–255. -/
def toUnsignedChar (n : Int) : Byte :=
  ⟨(n % 256).toNat, by
    have h1 : 0 ≤ n % 256 := Int.emod_nonneg n (by decide)
    have h2 : n % 256 < 256 := Int.emod_lt_of_pos n (by decide)
    omega⟩

/-- Storing an integer value into the `Version` field of a record, with the C
integer-to-`unsigned char` conversion applied. -/
def storeVersion (a : cipher__BitcoinAddress) (n : Int) : cipher__BitcoinAddress :=
  { a with Version := toUnsignedChar n }

/-- The operations the core makes available on a constructed record: reading
either field, copying the record by value, and reading out its payload bytes.
The source declares no mutating operation on the struct. -/
inductive CoreOp where
  | readVersionOp : CoreOp
  | readKeyOp : CoreOp
  | copyOp : CoreOp
  | serializeOp : CoreOp
deriving DecidableEq

/-- Running one core operation against a record: each operation returns the
bytes it observed together with the record as it stands afterwards.  Reads
and by-value copies of a C struct leave the struct's own storage untouched. -/
def runCoreOp : CoreOp → cipher__BitcoinAddress → List Byte × cipher__BitcoinAddress
  | CoreOp.readVersionOp, a => ([a.Version], a)
  | CoreOp.readKeyOp, a => (a.Key.val, a)
  | CoreOp.copyOp, a => ([], a)
  | CoreOp.serializeOp, a => (serializeBitcoinAddress a, a)

/-- Running a sequence of core operations against a record, threading the
record state through, and returning the final record. -/
def runCoreOps (ops : List CoreOp) (a : cipher__BitcoinAddress) : cipher__BitcoinAddress :=
  ops.foldl (fun s op => (runCoreOp op s).2) a

/-- A store of address records at numbered locations, modelling independent
by-value copies living in separate storage. -/
def Store := Nat → cipher__BitcoinAddress

/-- Overwriting the record stored at location `i`. -/
def writeStore (s : Store) (i : Nat) (a : cipher__BitcoinAddress) : Store :=
  fun j => if j = i then a else s j

/-- Copying the record at `src` by value into the separate storage at `dst`
(C struct assignment `*dst = *src`). -/
def copyRecord (s : Store) (src dst : Nat) : Store :=
  writeStore s dst (s src)

/-- Overwriting the `Version` field of the record stored at location `i`. -/
def setVersionAt (s : Store) (i : Nat) (v : Byte) : Store :=
  writeStore s i { s i with Version := v }

/-- Overwriting the `Key` field of the record stored at location `i`. -/
def setKeyAt (s : Store) (i : Nat) (k : cipher__Ripemd160) : Store :=
  writeStore s i { s i with Key := k }

/-- A concrete 20-byte hash of all zero bytes, for concrete evaluations. -/
def zeroKey : cipher__Ripemd160 :=
  ⟨List.replicate 20 (0 : Byte), by decide⟩

/-- A concrete 20-byte hash of all `0x01` bytes, for concrete evaluations. -/
def oneKey : cipher__Ripemd160 :=
  ⟨List.replicate 20 (1 : Byte), by decide⟩

/-- A concrete store holding the all-zero record at every location. -/
def sampleStore : Store :=
  fun _ => ⟨0, zeroKey⟩

section Lemmas

/-- Helper: every single core operation leaves the record unchanged. -/
theorem runCoreOp_snd (op : CoreOp) (a : cipher__BitcoinAddress) :
    (runCoreOp op a).2 = a := by
  cases op <;> rfl

/-- Helper: every sequence of core operations leaves the record unchanged. -/
theorem runCoreOps_eq (ops : List CoreOp) (a : cipher__BitcoinAddress) :
    runCoreOps ops a = a := by
  induction ops generalizing a with
  | nil => rfl
  | cons op rest ih =>
      show runCoreOps rest (runCoreOp op a).2 = a
      rw [runCoreOp_snd, ih]

end Lemmas

/-- C1: constructing a record from any byte `v` and any 20-byte sequence `h`
and reading the fields back yields exactly `(v, h)`, untransformed. -/
theorem construct_roundtrip (v : Byte) (h : cipher__Ripemd160) :
    readVersion (mkBitcoinAddress v h) = v ∧
    readKey (mkBitcoinAddress v h) = h ∧
    (readKey (mkBitcoinAddress v h)).val = h.val := by
  exact ⟨rfl, rfl, rfl⟩

/-- C2: two records are equal exactly when their `Version` fields are equal
and their `Key` fields are byte-for-byte equal. -/
theorem eq_iff_fields_eq (a b : cipher__BitcoinAddress) :
    a = b ↔ (a.Version = b.Version ∧ a.Key.val = b.Key.val) := by
  constructor
  · intro h
    exact ⟨by rw [h], by rw [h]⟩
  · rintro ⟨hv, hk⟩
    cases a with
    | mk av ak =>
      cases b with
      | mk bv bk =>
        cases ak; cases bk
        simp only at hv hk
        subst hv
        subst hk
        rfl

/-- C3: every record's `Version` field is exactly one byte, its `Key` field
is exactly 20 bytes, and its payload is exactly 1 + 20 = 21 bytes. -/
theorem record_size_invariant (a : cipher__BitcoinAddress) :
    a.Version.val < 2 ^ 8 ∧
    a.Key.val.length = 20 ∧
    (serializeBitcoinAddress a).length = 1 + 20 := by
  refine ⟨?_, a.Key.property, ?_⟩
  · exact a.Version.isLt
  · show a.Key.val.length + 1 = 1 + 20
    rw [a.Key.property]

/-- C4: every core operation is total: construction from any version byte and
any 20-byte hash succeeds yielding those fields, and field reads and core
operation runs always produce a result. -/
theorem operations_total (v : Byte) (h : cipher__Ripemd160)
    (a : cipher__BitcoinAddress) (op : CoreOp) :
    (∃ b, mkBitcoinAddress v h = b ∧ b.Version = v ∧ b.Key = h) ∧
    (∃ w, readVersion a = w) ∧
    (∃ k, readKey a = k) ∧
    (∃ r, runCoreOp op a = r) := by
  exact ⟨⟨mkBitcoinAddress v h, rfl, rfl, rfl⟩, ⟨_, rfl⟩, ⟨_, rfl⟩, ⟨_, rfl⟩⟩

/-- C5: a record is immutable under the core: every sequence of core
operations leaves both field values unchanged. -/
theorem record_immutable (ops : List CoreOp) (a : cipher__BitcoinAddress) :
    (runCoreOps ops a).Version = a.Version ∧
    (runCoreOps ops a).Key = a.Key := by
  rw [runCoreOps_eq]
  exact ⟨rfl, rfl⟩

/-- C6: the payload of a record is exactly 21 bytes in the fixed order —
version byte first, then the 20 hash bytes — and a consumer reading those
bytes back in that order recovers the record's fields. -/
theorem serialize_layout_roundtrip (a : cipher__BitcoinAddress) :
    serializeBitcoinAddress a = readVersion a :: (readKey a).val ∧
    (serializeBitcoinAddress a).length = 21 ∧
    deserializeBitcoinAddress (serializeBitcoinAddress a) = some a := by
  refine ⟨rfl, ?_, ?_⟩
  · show a.Key.val.length + 1 = 21
    rw [a.Key.property]
  · cases a with
    | mk av ak =>
      cases ak with
      | mk l hl =>
        show (if h : l.length = 20 then
            some (cipher__BitcoinAddress.mk av ⟨l, h⟩) else none) =
          some (cipher__BitcoinAddress.mk av ⟨l, hl⟩)
        rw [dif_pos hl]

/-- C7: copying a record into separate storage and then mutating either field
of the copy leaves the original record's field values unchanged. -/
theorem copy_independence (s : Store) (src dst : Nat) (v : Byte)
    (k : cipher__Ripemd160) (hne : dst ≠ src) :
    setVersionAt (copyRecord s src dst) dst v src = s src ∧
    setKeyAt (copyRecord s src dst) dst k src = s src := by
  have h2 : src ≠ dst := Ne.symm hne
  constructor <;>
    simp only [setVersionAt, setKeyAt, copyRecord, writeStore, if_neg h2]

/-- Witness for C7 at a concrete store, locations 0 and 1, version byte 5 and
an all-ones hash. -/
theorem copy_independence_witness :
    (1 : Nat) ≠ 0 ∧
    (setVersionAt (copyRecord sampleStore 0 1) 1 5 0 = sampleStore 0 ∧
      setKeyAt (copyRecord sampleStore 0 1) 1 oneKey 0 = sampleStore 0) :=
  ⟨by decide, copy_independence sampleStore 0 1 5 oneKey (by decide)⟩

/-- C8: a record carries no state beyond its two fields: records agreeing on
`Version` and on `Key` are identical. -/
theorem record_extensionality (a b : cipher__BitcoinAddress)
    (hv : a.Version = b.Version) (hk : a.Key = b.Key) : a = b := by
  cases a with
  | mk av ak =>
    cases b with
    | mk bv bk =>
      simp only at hv hk
      subst hv
      subst hk
      rfl

/-- Witness for C8 at two concrete records built with version byte 7 and the
all-zero hash. -/
theorem record_extensionality_witness :
    (mkBitcoinAddress 7 zeroKey).Version = cipher__BitcoinAddress.Version ⟨7, zeroKey⟩ ∧
    (mkBitcoinAddress 7 zeroKey).Key = cipher__BitcoinAddress.Key ⟨7, zeroKey⟩ ∧
    mkBitcoinAddress 7 zeroKey = ⟨7, zeroKey⟩ :=
  ⟨rfl, rfl, record_extensionality (mkBitcoinAddress 7 zeroKey) ⟨7, zeroKey⟩ rfl rfl⟩

/-- C9: the `Version` field is an unsigned 8-bit quantity: storing any
integer `n` into it yields `n` modulo 2^8, and every value read back from it
lies between 0 and 255. -/
theorem version_is_unsigned_byte (n : Int) (a : cipher__BitcoinAddress) :
    ((storeVersion a n).Version.val : Int) = n % 2 ^ 8 ∧
    (storeVersion a n).Version.val ≤ 255 ∧
    a.Version.val ≤ 255 := by
  refine ⟨?_, ?_, ?_⟩
  · show (((n % 256).toNat : Nat) : Int) = n % 2 ^ 8
    have h1 : 0 ≤ n % 256 := Int.emod_nonneg n (by decide)
    rw [Int.toNat_of_nonneg h1]
    norm_num
  · exact Nat.lt_succ_iff.mp (storeVersion a n).Version.isLt
  · exact Nat.lt_succ_iff.mp a.Version.isLt

/-- C10: field reads are deterministic and side-effect free: a read of either
field yields the same bytes no matter how many core operations, and in what
order, have run before it. -/
theorem reads_deterministic (a : cipher__BitcoinAddress)
    (ops₁ ops₂ : List CoreOp) :
    (runCoreOp CoreOp.readVersionOp (runCoreOps ops₁ a)).1 =
      (runCoreOp CoreOp.readVersionOp (runCoreOps ops₂ a)).1 ∧
    (runCoreOp CoreOp.readKeyOp (runCoreOps ops₁ a)).1 =
      (runCoreOp CoreOp.readKeyOp (runCoreOps ops₂ a)).1 := by
  rw [runCoreOps_eq, runCoreOps_eq]
  exact ⟨rfl, rfl⟩
